import Mathlib

/-!
Verification development for the PyRelDB engine: a shallow embedding of the
value/type system (`pyreldb/types.py`), the B-tree and hash indexes
(`pyreldb/index.py`), tables (`pyreldb/table.py`), snapshot persistence
(`pyreldb/storage.py`), the SQL tokenizer (`pyreldb/parser.py`) and the
query executor (`pyreldb/executor.py`).

Modelling conventions:
- Python `None` is `Value.null`; Python ints are `Int`; Python strings are
  Lean `String`s (ASCII assumed for the character-class predicates, which
  agree with Python there).  FLOAT columns (IEEE 754 doubles) are outside
  the embedding; no claim exercises them.
- Python in-place mutation becomes explicit state passing; a raised Python
  exception becomes `Except.error`.  Where an exception can escape midway
  through a method, the error carries the state at the moment of the raise
  so that mutation-before-raise can be reasoned about.
- Python `dict`s keep insertion order; they are modelled as association
  lists where setting an existing key overwrites in place and setting a new
  key appends.
- Recursive B-tree traversals take an explicit fuel argument (the Python
  code recurses on the node structure); callers pass the node count of the
  root plus one, which bounds the tree height, so fuel never runs out on
  trees produced by the modelled operations.
-/

/-- Python string comparison on lists of characters (lexicographic by code
point), used because Python `<` on `str` compares code points. -/
def charListLt : List Char → List Char → Bool
  | [], [] => false
  | [], _ :: _ => true
  | _ :: _, [] => false
  | a :: as, b :: bs =>
    if a.toNat < b.toNat then true
    else if a.toNat = b.toNat then charListLt as bs
    else false

/-- Left-pad a numeral with zeros to the given width, as `str.zfill` /
`%02d`-style formatting does. -/
def padNum (width : Nat) (n : Nat) : String :=
  let s := toString n
  if s.length < width then String.mk (List.replicate (width - s.length) '0') ++ s
  else s

/-- A `datetime.datetime` value (microseconds are not modelled; none of the
accepted parse formats produce them). -/
structure Datetime where
  year : Nat
  month : Nat
  day : Nat
  hour : Nat
  minute : Nat
  second : Nat
deriving DecidableEq, Repr

/-- `str(datetime)`: `YYYY-MM-DD HH:MM:SS`. -/
def Datetime.pyStr (d : Datetime) : String :=
  padNum 4 d.year ++ "-" ++ padNum 2 d.month ++ "-" ++ padNum 2 d.day ++ " " ++
    padNum 2 d.hour ++ ":" ++ padNum 2 d.minute ++ ":" ++ padNum 2 d.second

/-- `datetime.isoformat()`: `YYYY-MM-DDTHH:MM:SS`. -/
def Datetime.isoStr (d : Datetime) : String :=
  padNum 4 d.year ++ "-" ++ padNum 2 d.month ++ "-" ++ padNum 2 d.day ++ "T" ++
    padNum 2 d.hour ++ ":" ++ padNum 2 d.minute ++ ":" ++ padNum 2 d.second

/-- Chronological order on datetimes (Python compares them field by field). -/
def Datetime.fields (d : Datetime) : List Nat :=
  [d.year, d.month, d.day, d.hour, d.minute, d.second]

def natListLt : List Nat → List Nat → Bool
  | [], [] => false
  | [], _ :: _ => true
  | _ :: _, [] => false
  | a :: as, b :: bs => if a < b then true else if a = b then natListLt as bs else false

/-- The dynamic scalar domain of the engine: the Python values that can
appear in rows (`None`, `int`, `str`, `bool`, `datetime`). -/
inductive Value where
  | null : Value
  | int (n : Int) : Value
  | text (s : String) : Value
  | bool (b : Bool) : Value
  | dt (d : Datetime) : Value
deriving DecidableEq, Repr

/-- Numeric view used by Python comparisons: `bool` is a subclass of `int`
(`True == 1`, `False == 0`). -/
def Value.numOf : Value → Option Int
  | .int n => some n
  | .bool b => some (if b then 1 else 0)
  | _ => none

/-- Python `==` on the modelled values: numbers compare across `int`/`bool`,
everything else compares within its own type, cross-type is `False`, and
`None == None` is `True`.  `==` never raises. -/
def valueEq (a b : Value) : Bool :=
  match a.numOf, b.numOf with
  | some x, some y => x = y
  | _, _ =>
    match a, b with
    | .null, .null => true
    | .text s, .text t => s = t
    | .dt c, .dt d => c = d
    | _, _ => false

/-- Python `<`: defined within numbers, strings and datetimes; any other
pairing raises `TypeError`. -/
def pyLt (a b : Value) : Except String Bool :=
  match a.numOf, b.numOf with
  | some x, some y => .ok (x < y)
  | _, _ =>
    match a, b with
    | .text s, .text t => .ok (charListLt s.toList t.toList)
    | .dt c, .dt d => .ok (natListLt c.fields d.fields)
    | _, _ => .error "TypeError: unorderable values"

/-- Python `<=`, with the same `TypeError` domain as `pyLt`. -/
def pyLe (a b : Value) : Except String Bool :=
  match pyLt b a with
  | .ok r => .ok (!r)
  | .error e => .error e

/-- Total-ized `<` used where the engine only ever compares values of one
column's (homogeneous) converted type, so the `TypeError` branch is
unreachable; incomparable pairs are mapped to `false`. -/
def pyLtBool (a b : Value) : Bool := (pyLt a b).toOption.getD false

def pyGtBool (a b : Value) : Bool := pyLtBool b a

def pyLeBool (a b : Value) : Bool := (pyLe a b).toOption.getD false

def pyGeBool (a b : Value) : Bool := pyLeBool b a

/-- Python `str(value)` for the modelled values. -/
def pyStrOfValue : Value → String
  | .null => "None"
  | .int n => toString n
  | .text s => s
  | .bool b => if b then "True" else "False"
  | .dt d => d.pyStr

/-- Python truthiness `bool(value)` for the modelled values. -/
def pyTruthy : Value → Bool
  | .null => false
  | .int n => n ≠ 0
  | .text s => s ≠ ""
  | .bool b => b
  | .dt _ => true

/-- The supported data types (`DataType` enum); FLOAT is outside the
embedding (IEEE 754). -/
inductive DataTypeT where
  | int : DataTypeT
  | varchar : DataTypeT
  | boolean : DataTypeT
  | datetime : DataTypeT
deriving DecidableEq, Repr

/-- The `.value` string of the enum member. -/
def DataTypeT.enumValue : DataTypeT → String
  | .int => "INT"
  | .varchar => "VARCHAR"
  | .boolean => "BOOLEAN"
  | .datetime => "DATETIME"

/-- `DataType(s)` lookup, failing on an unknown (or unmodelled) name. -/
def DataTypeT.ofEnumValue (s : String) : Except String DataTypeT :=
  if s = "INT" then .ok .int
  else if s = "VARCHAR" then .ok .varchar
  else if s = "BOOLEAN" then .ok .boolean
  else if s = "DATETIME" then .ok .datetime
  else .error ("not a valid DataType: " ++ s)

/-- A table column (`Column.__init__`). -/
structure Column where
  name : String
  dataType : DataTypeT
  length : Option Nat := none
  nullable : Bool := true
  primaryKey : Bool := false
  unique : Bool := false
  dfault : Value := .null
deriving DecidableEq, Repr

/-- Python `int(str)`: strips ASCII whitespace, accepts an optional sign
followed by a nonempty digit run, raises `ValueError` otherwise. -/
def parseIntPy (s : String) : Except String Int :=
  let cs := (s.toList.dropWhile Char.isWhitespace).reverse.dropWhile Char.isWhitespace |>.reverse
  let core : Option (Bool × List Char) :=
    match cs with
    | '-' :: rest => some (true, rest)
    | '+' :: rest => some (false, rest)
    | rest => some (false, rest)
  match core with
  | some (neg, ds) =>
    if ds ≠ [] ∧ ds.all Char.isDigit then
      let n : Nat := ds.foldl (fun acc c => acc * 10 + (c.toNat - 48)) 0
      .ok (if neg then -(n : Int) else (n : Int))
    else .error ("invalid literal for int() with base 10: " ++ s)
  | none => .error ("invalid literal for int() with base 10: " ++ s)

/-- Number of days in a month, as `datetime` validates. -/
def daysInMonth (year month : Nat) : Nat :=
  if month = 2 then
    if year % 4 = 0 ∧ (year % 100 ≠ 0 ∨ year % 400 = 0) then 29 else 28
  else if month = 4 ∨ month = 6 ∨ month = 9 ∨ month = 11 then 30
  else 31

def allDigits (cs : List Char) : Bool := cs ≠ [] && cs.all Char.isDigit

def digitsToNat (cs : List Char) : Nat :=
  cs.foldl (fun acc c => acc * 10 + (c.toNat - 48)) 0

/-- Split a character list at every occurrence of the separator. -/
def splitOnChar (sep : Char) (cs : List Char) : List (List Char) :=
  match cs with
  | [] => [[]]
  | c :: rest =>
    let r := splitOnChar sep rest
    if c = sep then [] :: r
    else
      match r with
      | [] => [[c]]
      | g :: gs => (c :: g) :: gs

/-- Validate and build a datetime from numeric fields, as the `datetime`
constructor does after `strptime` matches. -/
def mkDatetime (y mo d h mi s : Nat) : Except String Datetime :=
  if 1 ≤ mo ∧ mo ≤ 12 ∧ 1 ≤ d ∧ d ≤ daysInMonth y mo ∧ h ≤ 23 ∧ mi ≤ 59 ∧ s ≤ 59 then
    .ok ⟨y, mo, d, h, mi, s⟩
  else .error "field out of range"

/-- `strptime(value, "%Y-%m-%d")` (digit fields, up to 4/2 digits). -/
def parseDatePart (cs : List Char) : Except String (Nat × Nat × Nat) :=
  match splitOnChar '-' cs with
  | [ys, ms, ds] =>
    if allDigits ys ∧ ys.length ≤ 4 ∧ allDigits ms ∧ ms.length ≤ 2 ∧
        allDigits ds ∧ ds.length ≤ 2 then
      .ok (digitsToNat ys, digitsToNat ms, digitsToNat ds)
    else .error "no match"
  | _ => .error "no match"

/-- `"%H:%M:%S"` time fields. -/
def parseTimePart (cs : List Char) : Except String (Nat × Nat × Nat) :=
  match splitOnChar ':' cs with
  | [hs, ms, ss] =>
    if allDigits hs ∧ hs.length ≤ 2 ∧ allDigits ms ∧ ms.length ≤ 2 ∧
        allDigits ss ∧ ss.length ≤ 2 then
      .ok (digitsToNat hs, digitsToNat ms, digitsToNat ss)
    else .error "no match"
  | _ => .error "no match"

/-- The three formats tried in order by `Column.convert` for DATETIME:
`%Y-%m-%d %H:%M:%S`, `%Y-%m-%d`, `%Y-%m-%dT%H:%M:%S`; first match wins. -/
def parseDatetimePy (s : String) : Except String Datetime :=
  let cs := s.toList
  let try1 : Except String Datetime :=
    match splitOnChar ' ' cs with
    | [dpart, tpart] =>
      match parseDatePart dpart, parseTimePart tpart with
      | .ok (y, mo, d), .ok (h, mi, ss) => mkDatetime y mo d h mi ss
      | _, _ => .error "no match"
    | _ => .error "no match"
  let try2 : Except String Datetime :=
    match try1 with
    | .ok d => .ok d
    | .error _ =>
      match parseDatePart cs with
      | .ok (y, mo, d) => mkDatetime y mo d 0 0 0
      | .error _ =>
        match splitOnChar 'T' cs with
        | [dpart, tpart] =>
          match parseDatePart dpart, parseTimePart tpart with
          | .ok (y, mo, d), .ok (h, mi, ss) => mkDatetime y mo d h mi ss
          | _, _ => .error "no match"
        | _ => .error "no match"
  match try2 with
  | .ok d => .ok d
  | .error _ => .error ("Cannot parse datetime: " ++ s)

/-- `Column.convert`: coerce a value to the column's Python type; raises
(`Except.error`) on impossible conversions. -/
def Column.convert (c : Column) (v : Value) : Except String Value :=
  match v with
  | .null => .ok .null
  | _ =>
    match c.dataType with
    | .int =>
      match v with
      | .int n => .ok (.int n)
      | .bool b => .ok (.int (if b then 1 else 0))
      | .text s => (parseIntPy s).map Value.int
      | .dt _ => .error "int() argument must be a number, not datetime"
      | .null => .ok .null
    | .varchar => .ok (.text (pyStrOfValue v))
    | .boolean =>
      match v with
      | .bool b => .ok (.bool b)
      | .text s =>
        .ok (.bool (["true", "1", "yes", "t"].contains
          (String.mk (s.toList.map Char.toLower))))
      | w => .ok (.bool (pyTruthy w))
    | .datetime =>
      match v with
      | .dt d => .ok (.dt d)
      | .text s => (parseDatetimePy s).map Value.dt
      | _ => .error ("Invalid datetime value: " ++ pyStrOfValue v)

/-- `Column.validate`: the `(is_valid, error_message)` pair. -/
def Column.validate (c : Column) (v : Value) : Bool × Option String :=
  if v = .null then
    if ¬c.nullable ∧ ¬c.primaryKey then
      (false, some ("Column \x27" ++ c.name ++ "\x27 cannot be NULL"))
    else (true, none)
  else
    match c.convert v with
    | .error e => (false, some ("Type error for column \x27" ++ c.name ++ "\x27: " ++ e))
    | .ok conv =>
      if conv = .null then (false, some ("Invalid value for " ++ c.dataType.enumValue))
      else
        if c.dataType = .varchar then
          match c.length with
          | some l =>
            if l ≠ 0 ∧ (pyStrOfValue v).length > l then
              (false, some ("Value exceeds maximum length " ++ toString l ++
                " for column \x27" ++ c.name ++ "\x27"))
            else (true, none)
          | none => (true, none)
        else (true, none)

/-- A node of the simplified B-tree in `pyreldb/index.py` (`BTreeNode`). -/
inductive BTreeNode where
  | node (isLeaf : Bool) (keys : List Value) (values : List Nat)
      (children : List BTreeNode) : BTreeNode

def BTreeNode.isLeaf : BTreeNode → Bool
  | .node l _ _ _ => l

def BTreeNode.keys : BTreeNode → List Value
  | .node _ ks _ _ => ks

def BTreeNode.values : BTreeNode → List Nat
  | .node _ _ vs _ => vs

def BTreeNode.children : BTreeNode → List BTreeNode
  | .node _ _ _ cs => cs

/-- `BTreeNode.is_full`: `len(keys) >= 2 * order - 1`. -/
def BTreeNode.isFull (n : BTreeNode) (order : Nat) : Bool :=
  n.keys.length ≥ 2 * order - 1

/-- Placeholder node used to total-ize list indexing that cannot fail on
trees the modelled operations build. -/
def emptyLeaf : BTreeNode := .node true [] [] []

/-- `BTreeIndex._search_node`: advance `i` while `key > keys[i]`, then on an
exact match return the entry (and, for internal nodes, also search
`children[i+1]`); otherwise descend into `children[i]`. -/
def searchNode (fuel : Nat) (n : BTreeNode) (key : Value) : List Nat :=
  match fuel with
  | 0 => []
  | fuel + 1 =>
    let i := (n.keys.takeWhile (fun k => pyGtBool key k)).length
    if h : i < n.keys.length then
      if valueEq key (n.keys.get ⟨i, h⟩) then
        let v := n.values.getD i 0
        if n.isLeaf then [v]
        else v :: searchNode fuel (n.children.getD (i + 1) emptyLeaf) key
      else if n.isLeaf then []
      else searchNode fuel (n.children.getD i emptyLeaf) key
    else
      if n.isLeaf then []
      else searchNode fuel (n.children.getD i emptyLeaf) key

/-- `BTreeIndex._range_search_node`: for each key in the node, collect it if
it lies in `[lo, hi]` and recurse into `children[i]` only when
`keys[i] <= hi`; finally recurse into the last child when the last key is
`<= hi` (or the node has no keys). -/
def rangeSearchNode (fuel : Nat) (n : BTreeNode) (lo hi : Value) : List Nat :=
  match fuel with
  | 0 => []
  | fuel + 1 =>
    let per := (List.range n.keys.length).flatMap (fun i =>
      let k := n.keys.getD i .null
      (if pyGeBool k lo ∧ pyLeBool k hi then [n.values.getD i 0] else []) ++
      (if ¬n.isLeaf ∧ pyLeBool k hi then
        rangeSearchNode fuel (n.children.getD i emptyLeaf) lo hi
      else []))
    per ++
      (if ¬n.isLeaf ∧ (n.keys.isEmpty ∨
          pyLeBool (n.keys.getLast?.getD .null) hi) then
        rangeSearchNode fuel ((n.children.getLast?).getD emptyLeaf) lo hi
      else [])

/-- Position at which `_insert_non_full` places a key in a node: the Python
loop shifts entries right from the end while `key < keys[i]`, so the key
lands after the maximal trailing run of keys greater than it. -/
def insertPos (keys : List Value) (key : Value) : Nat :=
  keys.length - (keys.reverse.takeWhile (fun k => pyLtBool key k)).length

/-- `BTreeIndex._split_child`: split the full child at `index`.  Note that
the Python code truncates `full_child.keys` to `keys[:mid]` *before*
reading `full_child.keys[mid]`, so (as `mid < mid` is false) the key
promoted to the parent is `new_child.keys[0]` and the median entry at
index `mid` is dropped from the tree. -/
def splitChild (order : Nat) (parent : BTreeNode) (index : Nat) : BTreeNode :=
  let fullChild := parent.children.getD index emptyLeaf
  let mid := order - 1
  let newChild : BTreeNode := .node fullChild.isLeaf
    (fullChild.keys.drop (mid + 1)) (fullChild.values.drop (mid + 1))
    (if ¬fullChild.isLeaf then fullChild.children.drop (mid + 1) else [])
  let truncChild : BTreeNode := .node fullChild.isLeaf
    (fullChild.keys.take mid) (fullChild.values.take mid)
    (if ¬fullChild.isLeaf then fullChild.children.take (mid + 1)
     else fullChild.children)
  let promotedKey :=
    if mid < (fullChild.keys.take mid).length then
      (fullChild.keys.take mid).getD mid .null
    else newChild.keys.getD 0 .null
  let promotedVal :=
    if mid < (fullChild.values.take mid).length then
      (fullChild.values.take mid).getD mid 0
    else newChild.values.getD 0 0
  .node parent.isLeaf
    (parent.keys.insertIdx index promotedKey)
    (parent.values.insertIdx index promotedVal)
    (((parent.children.set index truncChild).insertIdx (index + 1) newChild))

/-- `BTreeIndex._insert_non_full`. -/
def insertNonFull (order : Nat) (fuel : Nat) (n : BTreeNode) (key : Value)
    (rowIndex : Nat) : BTreeNode :=
  match fuel with
  | 0 => n
  | fuel + 1 =>
    if n.isLeaf then
      let pos := insertPos n.keys key
      .node true (n.keys.take pos ++ key :: n.keys.drop pos)
        (n.values.take pos ++ rowIndex :: n.values.drop pos) n.children
    else
      let i := insertPos n.keys key
      let stepped :=
        if (n.children.getD i emptyLeaf).isFull order then
          let n2 := splitChild order n i
          (n2, if pyGtBool key (n2.keys.getD i .null) then i + 1 else i)
        else (n, i)
      let n2 := stepped.1
      let i2 := stepped.2
      let child := insertNonFull order fuel (n2.children.getD i2 emptyLeaf) key rowIndex
      .node n2.isLeaf n2.keys n2.values (n2.children.set i2 child)

/-- `BTreeIndex._delete_from_node` on one node: returns the updated node and
whether an entry was excised.  Python finds the *first* index whose key
`== key` (`list.index`); only if that one's value matches the slot is the
entry removed, otherwise it falls through to the children in order. -/
def deleteFromNode (fuel : Nat) (n : BTreeNode) (key : Value) (rowIndex : Nat) :
    BTreeNode × Bool :=
  match fuel with
  | 0 => (n, false)
  | fuel + 1 =>
    let hit :=
      match n.keys.findIdx? (fun k => valueEq k key) with
      | some i => if n.values.getD i 0 = rowIndex then some i else none
      | none => none
    match hit with
    | some i =>
      let children' :=
        if ¬n.isLeaf ∧ i < n.children.length then n.children.eraseIdx i
        else n.children
      (.node n.isLeaf (n.keys.eraseIdx i) (n.values.eraseIdx i) children', true)
    | none =>
      if n.isLeaf then (n, false)
      else
        let folded := n.children.foldl
          (fun (acc : List BTreeNode × Bool) c =>
            if acc.2 then (acc.1 ++ [c], true)
            else
              let r := deleteFromNode fuel c key rowIndex
              (acc.1 ++ [r.1], r.2))
          ([], false)
        (.node n.isLeaf n.keys n.values folded.1, folded.2)

/-- `BTreeIndex._collect_entries`: the node's `(key, slot)` pairs followed by
each child's, in order. -/
def collectEntries (fuel : Nat) (n : BTreeNode) : List (Value × Nat) :=
  match fuel with
  | 0 => []
  | fuel + 1 =>
    n.keys.zip n.values ++
      (if ¬n.isLeaf then n.children.flatMap (collectEntries fuel) else [])

/-- `BTreeIndex`: column name, branching order, root node and the `size`
counter (a Python `int`, so it may go negative). -/
structure BTreeIndex where
  columnName : String
  order : Nat := 3
  root : BTreeNode := emptyLeaf
  size : Int := 0

def BTreeIndex.new (columnName : String) (order : Nat := 3) : BTreeIndex :=
  { columnName := columnName, order := order }

mutual

/-- Number of nodes in the tree; dominates the recursion depth of every
traversal, so it serves as fuel. -/
def nodeWeight : BTreeNode → Nat
  | .node _ _ _ cs => 1 + nodesWeight cs

def nodesWeight : List BTreeNode → Nat
  | [] => 0
  | c :: cs => nodeWeight c + nodesWeight cs

end

/-- Fuel that dominates the recursion depth of every traversal of `n`. -/
def nodeFuel (n : BTreeNode) : Nat := nodeWeight n + 1

/-- `BTreeIndex.search`. -/
def BTreeIndex.search (idx : BTreeIndex) (key : Value) : List Nat :=
  searchNode (nodeFuel idx.root) idx.root key

/-- `BTreeIndex.range_search`. -/
def BTreeIndex.rangeSearch (idx : BTreeIndex) (lo hi : Value) : List Nat :=
  rangeSearchNode (nodeFuel idx.root) idx.root lo hi

/-- `BTreeIndex.insert`: split a full root first, then insert into the
non-full tree; `size` is always incremented. -/
def BTreeIndex.insert (idx : BTreeIndex) (key : Value) (rowIndex : Nat) :
    BTreeIndex :=
  let root1 :=
    if idx.root.isFull idx.order then
      splitChild idx.order (.node false [] [] [idx.root]) 0
    else idx.root
  let root2 := insertNonFull idx.order (nodeFuel root1) root1 key rowIndex
  { idx with root := root2, size := idx.size + 1 }

/-- `BTreeIndex.delete`: excise the first matching `(key, slot)` entry if one
is found; `size` is decremented unconditionally. -/
def BTreeIndex.delete (idx : BTreeIndex) (key : Value) (rowIndex : Nat) :
    BTreeIndex :=
  let r := deleteFromNode (nodeFuel idx.root) idx.root key rowIndex
  { idx with root := r.1, size := idx.size - 1 }

/-- `BTreeIndex._collect_entries(self.root)`, i.e. the entry list serialized
by `to_dict`. -/
def BTreeIndex.entries (idx : BTreeIndex) : List (Value × Nat) :=
  collectEntries (nodeFuel idx.root) idx.root

/-- `SimpleIndex`: insertion-ordered hash map from key to slot list. -/
structure SimpleIndex where
  columnName : String
  index : List (Value × List Nat) := []

def assocFind (m : List (Value × List Nat)) (k : Value) : Option (List Nat) :=
  (m.find? (fun p => p.1 = k)).map (·.2)

def SimpleIndex.insert (s : SimpleIndex) (key : Value) (rowIndex : Nat) :
    SimpleIndex :=
  match assocFind s.index key with
  | some _ =>
    { s with index := s.index.map (fun p =>
        if p.1 = key then (p.1, p.2 ++ [rowIndex]) else p) }
  | none => { s with index := s.index ++ [(key, [rowIndex])] }

def SimpleIndex.search (s : SimpleIndex) (key : Value) : List Nat :=
  (assocFind s.index key).getD []

/-- `SimpleIndex.delete`: remove the first occurrence of the slot from that
key's list and drop the key when its list becomes empty. -/
def SimpleIndex.delete (s : SimpleIndex) (key : Value) (rowIndex : Nat) :
    SimpleIndex :=
  match assocFind s.index key with
  | some slots =>
    let slots' := slots.erase rowIndex
    if slots' = [] then { s with index := s.index.filter (fun p => p.1 ≠ key) }
    else { s with index := s.index.map (fun p =>
        if p.1 = key then (p.1, slots') else p) }
  | none => s

/-- A table's index: `Table.create_index` creates a `BTreeIndex` by default
and a `SimpleIndex` otherwise. -/
inductive TableIndex where
  | btree (b : BTreeIndex) : TableIndex
  | simple (s : SimpleIndex) : TableIndex

def TableIndex.search (ti : TableIndex) (key : Value) : List Nat :=
  match ti with
  | .btree b => b.search key
  | .simple s => s.search key

def TableIndex.insert (ti : TableIndex) (key : Value) (rowIndex : Nat) :
    TableIndex :=
  match ti with
  | .btree b => .btree (b.insert key rowIndex)
  | .simple s => .simple (s.insert key rowIndex)

def TableIndex.delete (ti : TableIndex) (key : Value) (rowIndex : Nat) :
    TableIndex :=
  match ti with
  | .btree b => .btree (b.delete key rowIndex)
  | .simple s => .simple (s.delete key rowIndex)

def TableIndex.isBtree : TableIndex → Bool
  | .btree _ => true
  | .simple _ => false

/-- A table row (`Row`): insertion-ordered `data` dict plus `row_id`. -/
structure Row where
  data : List (String × Value)
  rowId : Nat
deriving DecidableEq, Repr

/-- Python `dict.get(key)` on an association list (first binding wins;
the modelled dicts never hold duplicate keys). -/
def dictGet (d : List (String × Value)) (k : String) : Option Value :=
  (d.find? (fun p => p.1 = k)).map (·.2)

/-- Python `dict.__setitem__`: overwrite in place when the key exists,
append otherwise. -/
def dictSet (d : List (String × Value)) (k : String) (v : Value) :
    List (String × Value) :=
  if (dictGet d k).isSome then
    d.map (fun p => if p.1 = k then (p.1, v) else p)
  else d ++ [(k, v)]

/-- `Row.get` / `Row.__getitem__`: `data.get(key)`, i.e. `None` when the
key is absent. -/
def Row.get (r : Row) (k : String) : Value :=
  (dictGet r.data k).getD .null

/-- A table (`Table`): schema (ordered column dict plus `column_order`),
row slots (`none` is a tombstone), index map, `next_row_id`. -/
structure Table where
  name : String
  columns : List Column
  columnOrder : List String
  rows : List (Option Row)
  indexes : List (String × TableIndex)
  nextRowId : Nat

def Table.getColumn (t : Table) (n : String) : Option Column :=
  t.columns.find? (fun c => c.name = n)

def Table.getIndex (t : Table) (n : String) : Option TableIndex :=
  (t.indexes.find? (fun p => p.1 = n)).map (·.2)

/-- `Table.__init__`: columns in declaration order; a B-tree index is
created for every `primary_key` or `unique` column (the table starts
empty, so the index build loop adds nothing). -/
def Table.init (name : String) (cols : List Column) : Table :=
  { name := name
    columns := cols
    columnOrder := cols.map (·.name)
    rows := []
    indexes := (cols.filter (fun c => c.primaryKey ∨ c.unique)).map
      (fun c => (c.name, TableIndex.btree (BTreeIndex.new c.name)))
    nextRowId := 0 }

/-- `Table.scan`: the live (non-tombstoned) rows in slot order. -/
def Table.scan (t : Table) : List Row := t.rows.filterMap id

/-- `Table.find_by_column`.  With an index, the searched slots are mapped
through the slot array (a stale slot yields the stored `Option Row`,
possibly a tombstone).  Without one, the Python comprehension subscripts
every raw slot, so a tombstone (`None`) raises `TypeError`. -/
def Table.findByColumn (t : Table) (columnName : String) (v : Value) :
    Except String (List (Option Row)) :=
  match t.getIndex columnName with
  | some idx =>
    .ok (((idx.search v).filter (fun i => i < t.rows.length)).map
      (fun i => (t.rows.get? i).getD none))
  | none =>
    if t.rows.any (fun r => r.isNone) then
      .error "TypeError: \x27NoneType\x27 object is not subscriptable"
    else
      .ok ((t.scan.filter (fun r => valueEq (r.get columnName) v)).map some)

/-- Bind of `Except` used to thread Python exception propagation. -/
def exBind {α β : Type} (x : Except String α) (f : α → Except String β) :
    Except String β :=
  match x with
  | .ok a => f a
  | .error e => .error e

/-- `start <= row[col] <= end` for the full-scan branch of
`find_by_range`; either comparison may raise `TypeError`. -/
def inRangePy (lo v hi : Value) : Except String Bool :=
  exBind (pyLe lo v) (fun b1 =>
    if b1 then pyLe v hi else .ok false)

def filterRangeRows (columnName : String) (lo hi : Value) :
    List Row → Except String (List Row)
  | [] => .ok []
  | r :: rest =>
    let v := r.get columnName
    if v = .null then filterRangeRows columnName lo hi rest
    else
      exBind (inRangePy lo v hi) (fun keep =>
        exBind (filterRangeRows columnName lo hi rest) (fun tail =>
          .ok (if keep then r :: tail else tail)))

/-- `Table.find_by_range`: B-tree range search when a B-tree index exists
on the column, otherwise a full scan over the raw slot array (which, like
`find_by_column`, subscripts tombstones and raises `TypeError`). -/
def Table.findByRange (t : Table) (columnName : String) (lo hi : Value) :
    Except String (List (Option Row)) :=
  match t.getIndex columnName with
  | some (.btree b) =>
    .ok (((b.rangeSearch lo hi).filter (fun i => i < t.rows.length)).map
      (fun i => (t.rows.get? i).getD none))
  | _ =>
    if t.rows.any (fun r => r.isNone) then
      .error "TypeError: \x27NoneType\x27 object is not subscriptable"
    else
      (filterRangeRows columnName lo hi t.scan).map (fun l => l.map some)

/-- First slot holding a row equal to `r` (`self.rows.index(r)`); the rows
reaching this call come from `self.rows`, so the default is unreachable. -/
def Table.slotOf (t : Table) (r : Option Row) : Nat :=
  (t.rows.findIdx? (fun x => x = r)).getD t.rows.length

/-- `Table.validate_row`: `ok (is_valid, error)` mirrors the Python return
pair; `Except.error` mirrors an exception escaping (e.g. the `TypeError`
from an unindexed duplicate scan over tombstones). -/
def Table.validateRow (t : Table) (data : List (String × Value))
    (isUpdate : Bool) (excludeRowIndex : Option Nat) :
    Except String (Bool × Option String) :=
  match data.find? (fun p => (t.getColumn p.1).isNone) with
  | some p => .ok (false, some ("Unknown column: \x27" ++ p.1 ++ "\x27"))
  | none =>
    let step : List Column → Except String (Bool × Option String) :=
      fun cols =>
        cols.foldl
          (fun acc col =>
            exBind acc (fun res =>
              match res with
              | (false, e) => .ok (false, e)
              | (true, _) =>
                if isUpdate ∧ (dictGet data col.name).isNone then .ok (true, none)
                else
                  let value := (dictGet data col.name).getD .null
                  match col.validate value with
                  | (false, e) => .ok (false, e)
                  | (true, _) =>
                    if (col.unique ∨ col.primaryKey) ∧ value ≠ .null then
                      exBind (t.findByColumn col.name value) (fun existing =>
                        let existing :=
                          match excludeRowIndex with
                          | some k => existing.filter (fun r => t.slotOf r ≠ k)
                          | none => existing
                        if existing ≠ [] then
                          .ok (false, some ("Duplicate value for " ++
                            (if col.primaryKey then "PRIMARY KEY" else "UNIQUE") ++
                            " column \x27" ++ col.name ++ "\x27"))
                        else .ok (true, none))
                    else .ok (true, none)))
          (.ok (true, none))
    step t.columns

/-- The `full_data` synthesis loop of `Table.insert`: supplied values are
converted (conversion errors propagate), else the default, else `None`. -/
def Table.buildFullData (t : Table) (data : List (String × Value)) :
    Except String (List (String × Value)) :=
  t.columns.foldl
    (fun acc col =>
      exBind acc (fun fd =>
        match dictGet data col.name with
        | some v => (col.convert v).map (fun cv => fd ++ [(col.name, cv)])
        | none =>
          if col.dfault ≠ .null then .ok (fd ++ [(col.name, col.dfault)])
          else .ok (fd ++ [(col.name, Value.null)])))
    (.ok [])

/-- `Table.insert`.  All conversion and validation happens before any state
is touched, so a raised error (`Except.error`) carries the table exactly
as it was; on success the new row is appended, `next_row_id` is bumped and
every index over a non-null column value receives the new slot. -/
def Table.insert (t : Table) (data : List (String × Value)) :
    Except (String × Table) (Table × Row) :=
  match t.buildFullData data with
  | .error e => .error (e, t)
  | .ok fullData =>
    match t.validateRow fullData false none with
    | .error e => .error (e, t)
    | .ok (false, err) =>
      .error ("Validation error: " ++ err.getD "None", t)
    | .ok (true, _) =>
      let row : Row := ⟨fullData, t.nextRowId⟩
      let rowIndex := t.rows.length
      let indexes' := t.indexes.map (fun p =>
        let v := row.get p.1
        if v ≠ .null then (p.1, p.2.insert v rowIndex) else p)
      .ok ({ t with
              rows := t.rows ++ [some row]
              indexes := indexes'
              nextRowId := t.nextRowId + 1 }, row)

/-- `Table.delete`: raises on an out-of-range slot; subscripting a
tombstoned slot raises `TypeError` before any mutation when the table has
indexes; otherwise removes the row's values from every index and
tombstones the slot (the slot array does not compact). -/
def Table.delete (t : Table) (rowIndex : Nat) : Except (String × Table) Table :=
  if rowIndex ≥ t.rows.length then
    .error ("Invalid row index: " ++ toString rowIndex, t)
  else
    match (t.rows[rowIndex]?).getD none with
    | none =>
      if t.indexes.isEmpty then .ok { t with rows := t.rows.set rowIndex none }
      else .error ("TypeError: \x27NoneType\x27 object is not subscriptable", t)
    | some row =>
      let indexes' := t.indexes.map (fun p =>
        let v := row.get p.1
        if v ≠ .null then (p.1, p.2.delete v rowIndex) else p)
      .ok { t with indexes := indexes', rows := t.rows.set rowIndex none }

/-- The database catalog (`Database`); file-system persistence is modelled
by the serialized snapshot value itself (see the storage section). -/
structure Database where
  name : String
  tables : List (String × Table)

/-- `Database.get_table`. -/
def Database.getTable (db : Database) (n : String) : Option Table :=
  (db.tables.find? (fun p => p.1 = n)).map (·.2)

/-- A parsed WHERE condition tree (the recursive dicts built by
`SQLParser._parse_condition`). -/
inductive Cond where
  | logical (op : String) (left right : Cond) : Cond
  | cmp (column : String) (op : String) (value : Value) : Cond

/-- A parsed JOIN clause dict (`SQLParser._parse_join`). -/
structure JoinSpec where
  jtype : String
  table : String
  onLeft : String
  onRight : String

/-- A parsed SELECT statement dict (`SQLParser._parse_select`). -/
structure SelectQ where
  columns : List String
  table : String
  joins : List JoinSpec
  whereC : Option Cond
  orderBy : Option (String × String)
  limit : Option Int

/-- `"." in s` and `s.split(".", 1)` helpers for qualified column names. -/
def hasDot (s : String) : Bool := s.toList.contains '.'

def beforeDot (s : String) : String :=
  String.mk (s.toList.takeWhile (fun c => c ≠ '.'))

def afterDot (s : String) : String :=
  String.mk ((s.toList.dropWhile (fun c => c ≠ '.')).drop 1)

/-- `QueryExecutor._evaluate_condition`: non-short-circuiting AND/OR over
comparisons; `<`, `>`, `<=`, `>=` are `False` on a `None` column value and
otherwise use Python comparison (which may raise `TypeError`). -/
def evalCondition (r : Row) : Cond → Except String Bool
  | .logical op l rt =>
    exBind (evalCondition r l) (fun lb =>
      exBind (evalCondition r rt) (fun rb =>
        .ok (if op = "AND" then lb && rb else lb || rb)))
  | .cmp column op value =>
    let colValue := r.get column
    if op = "=" then .ok (valueEq colValue value)
    else if op = "!=" ∨ op = "<>" then .ok (!valueEq colValue value)
    else if op = "<" then
      if colValue = .null then .ok false else pyLt colValue value
    else if op = ">" then
      if colValue = .null then .ok false else pyLt value colValue
    else if op = "<=" then
      if colValue = .null then .ok false else pyLe colValue value
    else if op = ">=" then
      if colValue = .null then .ok false else pyLe value colValue
    else .error ("Unknown operator: " ++ op)

def filterWhere (c : Cond) : List Row → Except String (List Row)
  | [] => .ok []
  | r :: rest =>
    exBind (evalCondition r c) (fun keep =>
      exBind (filterWhere c rest) (fun tail =>
        .ok (if keep then r :: tail else tail)))

/-- Merge of a base row and a join row (`_apply_joins`): base columns are
written under `base.col` and bare `col`, then join columns under
`join.col` always and bare `col` only when not already present. -/
def mergeRows (baseName joinName : String) (br jr : Row) : Row :=
  let d1 := br.data.foldl
    (fun acc p => dictSet (dictSet acc (baseName ++ "." ++ p.1) p.2) p.1 p.2) []
  let d2 := jr.data.foldl
    (fun acc p =>
      let acc' := dictSet acc (joinName ++ "." ++ p.1) p.2
      if (dictGet acc' p.1).isSome then acc' else dictSet acc' p.1 p.2)
    d1
  ⟨d2, br.rowId⟩

/-- The unmatched-LEFT-JOIN padding row: base columns as in `mergeRows`,
then `join.col = None` for every join-table column (no bare names). -/
def padRow (baseName : String) (jt : Table) (br : Row) : Row :=
  let d1 := br.data.foldl
    (fun acc p => dictSet (dictSet acc (baseName ++ "." ++ p.1) p.2) p.1 p.2) []
  let d2 := jt.columns.foldl
    (fun acc c => dictSet acc (jt.name ++ "." ++ c.name) Value.null) d1
  ⟨d2, br.rowId⟩

/-- One iteration of the join loop in `QueryExecutor._apply_joins`: the
rows joined against are `base_rows` when the accumulated `result_rows` is
still empty, else `result_rows`; only INNER and LEFT have join branches
(any other join type leaves `joined_rows` empty); and an empty
`joined_rows` leaves `result_rows` unchanged. -/
def applyJoinStep (db : Database) (baseTable : Table) (baseRows : List Row)
    (resultRows : List Row) (j : JoinSpec) : Except String (List Row) :=
  match db.getTable j.table with
  | none => .error ("Table \x27" ++ j.table ++ "\x27 does not exist")
  | some joinTable =>
    let joinRows := joinTable.scan
    let leftColName := if hasDot j.onLeft then afterDot j.onLeft else j.onLeft
    let rightColName := if hasDot j.onRight then afterDot j.onRight else j.onRight
    let sourceRows := if resultRows.isEmpty then baseRows else resultRows
    let joined : List Row :=
      if j.jtype = "INNER" then
        sourceRows.flatMap (fun br =>
          joinRows.filterMap (fun jr =>
            if valueEq (br.get leftColName) (jr.get rightColName) then
              some (mergeRows baseTable.name joinTable.name br jr)
            else none))
      else if j.jtype = "LEFT" then
        sourceRows.flatMap (fun br =>
          let ms := joinRows.filterMap (fun jr =>
            if valueEq (br.get leftColName) (jr.get rightColName) then
              some (mergeRows baseTable.name joinTable.name br jr)
            else none)
          if ms.isEmpty then [padRow baseTable.name joinTable br] else ms)
      else []
    .ok (if joined.isEmpty then resultRows else joined)

def applyJoinsLoop (db : Database) (baseTable : Table) (baseRows : List Row)
    (resultRows : List Row) : List JoinSpec → Except String (List Row)
  | [] => .ok (if resultRows.isEmpty then baseRows else resultRows)
  | j :: rest =>
    exBind (applyJoinStep db baseTable baseRows resultRows j) (fun rr =>
      applyJoinsLoop db baseTable baseRows rr rest)

/-- `QueryExecutor._apply_joins`. -/
def applyJoins (db : Database) (baseTable : Table) (baseRows : List Row)
    (joins : List JoinSpec) : Except String (List Row) :=
  applyJoinsLoop db baseTable baseRows [] joins

/-- ORDER BY sort key: the named column's value with `""` substituted for
`None` (`r.get(column) if ... is not None else ""`). -/
def orderKey (column : String) (r : Row) : Value :=
  match r.get column with
  | .null => .text ""
  | v => v

/-- `sorted(rows, key=..., reverse=...)`: a stable sort driven by Python
`<` on the keys; Python raises `TypeError` when it compares incomparable
keys, modelled as an error whenever the key list holds an incomparable
pair. -/
def sortStage (rows : List Row) (orderBy : Option (String × String)) :
    Except String (List Row) :=
  match orderBy with
  | none => .ok rows
  | some (column, direction) =>
    let ks := rows.map (orderKey column)
    if ks.all (fun a => ks.all (fun b => (pyLt a b).isOk)) then
      let le : Row → Row → Bool :=
        if direction = "DESC" then
          fun a b => !pyLtBool (orderKey column a) (orderKey column b)
        else
          fun a b => !pyLtBool (orderKey column b) (orderKey column a)
      .ok (rows.mergeSort le)
    else .error "TypeError: unorderable sort keys"

/-- Python list slicing `rows[:n]` (a negative `n` drops from the end). -/
def pySliceTo (rows : List Row) (n : Int) : List Row :=
  if 0 ≤ n then rows.take n.toNat
  else rows.take (rows.length - min rows.length (-n).toNat)

/-- The LIMIT step of `_execute_select`: `if parsed["limit"]:` is a Python
truthiness test, so `None` *and* `0` both skip the truncation. -/
def applyLimitStage (limit : Option Int) (rows : List Row) : List Row :=
  match limit with
  | none => rows
  | some n => if n = 0 then rows else pySliceTo rows n

/-- `_execute_select` up to (and excluding) the LIMIT step: scan, JOINs,
WHERE filter, ORDER BY. -/
def selectSurvivors (db : Database) (q : SelectQ) : Except String (List Row) :=
  match db.getTable q.table with
  | none => .error ("Table \x27" ++ q.table ++ "\x27 does not exist")
  | some t =>
    let rows := t.scan
    exBind (if q.joins.isEmpty then .ok rows else applyJoins db t rows q.joins)
      (fun rows =>
        exBind (match q.whereC with
                | some c => filterWhere c rows
                | none => .ok rows)
          (fun rows => sortStage rows q.orderBy))

/-- The full row pipeline of `_execute_select` (before projection). -/
def selectRows (db : Database) (q : SelectQ) : Except String (List Row) :=
  (selectSurvivors db q).map (applyLimitStage q.limit)

/-- Column-list resolution of `_execute_select`: `*` expands to the first
result row's keys after a join, else to the table's column order. -/
def resolveColumns (q : SelectQ) (t : Table) (rows : List Row) : List String :=
  if q.columns = ["*"] then
    if ¬q.joins.isEmpty then
      match rows with
      | [] => []
      | r :: _ => r.data.map (·.1)
    else t.columnOrder
  else q.columns

/-- The projection loop of `_execute_select` building one result row. -/
def projectRow (cols : List String) (r : Row) : List (String × Value) :=
  cols.foldl
    (fun acc col =>
      if hasDot col then
        let colName := afterDot col
        let value :=
          if (dictGet r.data col).isSome then r.get col else r.get colName
        dictSet acc colName value
      else dictSet acc col (r.get col))
    []

/-- `_execute_select` through projection: the final result rows. -/
def executeSelectRows (db : Database) (q : SelectQ) :
    Except String (List (List (String × Value))) :=
  match db.getTable q.table with
  | none => .error ("Table \x27" ++ q.table ++ "\x27 does not exist")
  | some t =>
    exBind (selectRows db q) (fun rows =>
      .ok (rows.map (projectRow (resolveColumns q t rows))))

/-- The JSON value domain written by `json.dump` (floats never occur in the
modelled states). -/
inductive Json where
  | null : Json
  | jbool (b : Bool) : Json
  | jint (n : Int) : Json
  | jstr (s : String) : Json
  | jarr (xs : List Json) : Json
  | jobj (fields : List (String × Json)) : Json

/-- `data[key]` / `data.get(key)` on a serialized object. -/
def jGet (j : Json) (k : String) : Option Json :=
  match j with
  | .jobj fs => (fs.find? (fun p => p.1 = k)).map (·.2)
  | _ => none

/-- `json.dump(value, default=str)`: scalars serialize natively and a
`datetime` (not JSON-serializable) goes through `default=str`, i.e. its
`str()` rendering. -/
def jsonOfValue : Value → Json
  | .null => .null
  | .int n => .jint n
  | .text s => .jstr s
  | .bool b => .jbool b
  | .dt d => .jstr d.pyStr

/-- The value read back by `json.load` at a scalar position (arrays and
objects never occur at value positions in the snapshot). -/
def jsonToValue : Json → Value
  | .null => .null
  | .jbool b => .bool b
  | .jint n => .int n
  | .jstr s => .text s
  | .jarr _ => .null
  | .jobj _ => .null

/-- `Column.to_dict`. -/
def Column.toDict (c : Column) : Json :=
  .jobj [("name", .jstr c.name),
         ("data_type", .jstr c.dataType.enumValue),
         ("length", match c.length with | some l => .jint l | none => .null),
         ("nullable", .jbool c.nullable),
         ("primary_key", .jbool c.primaryKey),
         ("unique", .jbool c.unique),
         ("default", jsonOfValue c.dfault)]

/-- `Column.from_dict`. -/
def Column.fromDict (j : Json) : Except String Column :=
  match jGet j "name", jGet j "data_type" with
  | some (.jstr nm), some (.jstr dtv) =>
    (DataTypeT.ofEnumValue dtv).map (fun dt =>
      { name := nm
        dataType := dt
        length := match jGet j "length" with
                  | some (.jint l) => some l.toNat
                  | _ => none
        nullable := match jGet j "nullable" with
                    | some (.jbool b) => b
                    | _ => true
        primaryKey := match jGet j "primary_key" with
                      | some (.jbool b) => b
                      | _ => false
        unique := match jGet j "unique" with
                  | some (.jbool b) => b
                  | _ => false
        dfault := match jGet j "default" with
                  | some v => jsonToValue v
                  | none => .null })
  | _, _ => .error "KeyError: name or data_type"

/-- `Row.to_dict`. -/
def Row.toDict (r : Row) : Json :=
  .jobj [("row_id", .jint r.rowId),
         ("data", .jobj (r.data.map (fun p => (p.1, jsonOfValue p.2))))]

/-- `Row.from_dict`. -/
def Row.fromDict (j : Json) : Except String Row :=
  match jGet j "row_id", jGet j "data" with
  | some (.jint rid), some (.jobj fs) =>
    .ok ⟨fs.map (fun p => (p.1, jsonToValue p.2)), rid.toNat⟩
  | _, _ => .error "KeyError: row_id or data"

/-- `BTreeIndex.to_dict`: the collected `(key, slot)` entry list (tuples
serialize as JSON arrays). -/
def BTreeIndex.toDict (b : BTreeIndex) : Json :=
  .jobj [("column_name", .jstr b.columnName),
         ("order", .jint b.order),
         ("size", .jint b.size),
         ("entries", .jarr (b.entries.map (fun e =>
            .jarr [jsonOfValue e.1, .jint e.2])))]

/-- `BTreeIndex.from_dict`: re-insert every serialized entry into a fresh
tree (so `size` is recomputed by the inserts). -/
def BTreeIndex.fromDict (j : Json) : Except String BTreeIndex :=
  match jGet j "column_name", jGet j "order", jGet j "entries" with
  | some (.jstr cn), some (.jint ord), some (.jarr es) =>
    .ok (es.foldl
      (fun idx e =>
        match e with
        | .jarr [k, .jint slot] => idx.insert (jsonToValue k) slot.toNat
        | _ => idx)
      (BTreeIndex.new cn ord.toNat))
  | _, _, _ => .error "KeyError: btree index fields"

/-- `SimpleIndex.to_dict`: keys are stringified (`str(k)`). -/
def SimpleIndex.toDict (s : SimpleIndex) : Json :=
  .jobj [("column_name", .jstr s.columnName),
         ("index", .jobj (s.index.map (fun p =>
            (pyStrOfValue p.1, .jarr (p.2.map (fun i => .jint i))))))]

/-- `SimpleIndex.from_dict`: the stringified keys are kept as strings. -/
def SimpleIndex.fromDict (j : Json) : Except String SimpleIndex :=
  match jGet j "column_name", jGet j "index" with
  | some (.jstr cn), some (.jobj fs) =>
    .ok { columnName := cn
          index := fs.map (fun p =>
            (Value.text p.1,
             match p.2 with
             | .jarr xs => xs.filterMap (fun x =>
                 match x with | .jint n => some n.toNat | _ => none)
             | _ => [])) }
  | _, _ => .error "KeyError: simple index fields"

/-- `Table.to_dict`. -/
def Table.toDict (t : Table) : Json :=
  .jobj [("name", .jstr t.name),
         ("columns", .jarr (t.columns.map Column.toDict)),
         ("column_order", .jarr (t.columnOrder.map (fun c => .jstr c))),
         ("rows", .jarr (t.rows.map (fun r =>
            match r with
            | some row => row.toDict
            | none => .null))),
         ("indexes", .jobj (t.indexes.map (fun p =>
            (p.1, match p.2 with
                  | .btree b => b.toDict
                  | .simple s => s.toDict)))),
         ("next_row_id", .jint t.nextRowId)]

def exMapList {α : Type} (f : Json → Except String α) :
    List Json → Except String (List α)
  | [] => .ok []
  | j :: rest =>
    exBind (f j) (fun a => (exMapList f rest).map (fun as => a :: as))

/-- Assignment into the index dict of a freshly constructed table
(`table.indexes[name] = ...`): overwrite in place or append. -/
def setIndex (m : List (String × TableIndex)) (k : String) (v : TableIndex) :
    List (String × TableIndex) :=
  if (m.find? (fun p => p.1 = k)).isSome then
    m.map (fun p => if p.1 = k then (p.1, v) else p)
  else m ++ [(k, v)]

/-- `Table.from_dict`: rebuild columns, construct the table (which creates
fresh, empty primary-key/unique indexes), then overwrite `column_order`,
`next_row_id`, the row slots, and each serialized index (discriminated by
the presence of an `order` field). -/
def Table.fromDict (j : Json) : Except String Table :=
  match jGet j "name", jGet j "columns" with
  | some (.jstr nm), some (.jarr colJs) =>
    exBind (exMapList Column.fromDict colJs) (fun cols =>
      let t0 := Table.init nm cols
      let t1 := { t0 with
        columnOrder := (match jGet j "column_order" with
                        | some (.jarr cs) => cs.filterMap (fun c =>
                            match c with
                            | Json.jstr s => some s
                            | _ => none)
                        | _ => t0.columnOrder)
        nextRowId := (match jGet j "next_row_id" with
                      | some (.jint n) => n.toNat
                      | _ => 0) }
      exBind (match jGet j "rows" with
              | some (.jarr rowJs) =>
                exMapList (fun rj =>
                  match rj with
                  | .null => .ok (none : Option Row)
                  | _ => (Row.fromDict rj).map some) rowJs
              | _ => .ok []) (fun rows =>
        let t2 := { t1 with rows := rows }
        let idxJs := match jGet j "indexes" with
                     | some (.jobj fs) => fs
                     | _ => []
        idxJs.foldl
          (fun acc p =>
            exBind acc (fun t =>
              if (jGet p.2 "order").isSome then
                (BTreeIndex.fromDict p.2).map (fun b =>
                  { t with indexes := setIndex t.indexes p.1 (.btree b) })
              else
                (SimpleIndex.fromDict p.2).map (fun s =>
                  { t with indexes := setIndex t.indexes p.1 (.simple s) })))
          (.ok t2)))
  | _, _ => .error "KeyError: name or columns"

/-- `Database.save`: the snapshot document written (atomically) to disk;
`created_at` is the wall-clock time passed in by the caller. -/
def Database.save (db : Database) (now : Datetime) : Json :=
  .jobj [("name", .jstr db.name),
         ("created_at", .jstr now.isoStr),
         ("tables", .jobj (db.tables.map (fun p => (p.1, p.2.toDict))))]

/-- `Database.load` into a fresh instance named `origName`: restore the
name and rebuild every table via `Table.from_dict`. -/
def Database.load (origName : String) (j : Json) : Except String Database :=
  let nm := match jGet j "name" with
            | some (.jstr s) => s
            | _ => origName
  let tblJs := match jGet j "tables" with
               | some (.jobj fs) => fs
               | _ => []
  (tblJs.foldl
    (fun acc p =>
      exBind acc (fun ts =>
        (Table.fromDict p.2).map (fun t => ts ++ [(p.1, t)])))
    (.ok [])).map (fun ts => { name := nm, tables := ts })

/-- `save()` then `load()` into a fresh instance with the same name. -/
def Database.roundTrip (db : Database) (now : Datetime) :
    Except String Database :=
  Database.load db.name (db.save now)

/-- A lexical token (`Token`). -/
structure Token where
  ttype : String
  tvalue : String
deriving DecidableEq, Repr

/-- The fixed keyword set of the tokenizer (`Tokenizer.KEYWORDS`). -/
def keywordSet : List String :=
  ["SELECT", "FROM", "WHERE", "INSERT", "INTO", "VALUES", "UPDATE", "SET",
   "DELETE", "CREATE", "TABLE", "DROP", "INDEX", "ON", "PRIMARY", "KEY",
   "UNIQUE", "NOT", "NULL", "DEFAULT", "AND", "OR", "JOIN", "INNER", "LEFT",
   "RIGHT", "OUTER", "ORDER", "BY", "ASC", "DESC", "LIMIT", "INT", "VARCHAR",
   "FLOAT", "BOOLEAN", "DATETIME"]

def charUpperStr (cs : List Char) : String := String.mk (cs.map Char.toUpper)

/-- The scan loop of `Tokenizer._read_string` after the opening quote: walk
until the closing quote, a backslash skipping the following character
(both kept verbatim in the value); returns the collected value characters,
the remaining input after the token, and whether a closing quote was
found. -/
def readStringBody (q : Char) : List Char → List Char × List Char × Bool
  | [] => ([], [], false)
  | c :: rest =>
    if c = q then ([], rest, true)
    else if c = '\\' then
      match rest with
      | [] => ([c], [], false)
      | d :: rest2 =>
        let r := readStringBody q rest2
        (c :: d :: r.1, r.2.1, r.2.2)
    else
      let r := readStringBody q rest
      (c :: r.1, r.2.1, r.2.2)

/-- The operator/punctuation characters dispatched to `_read_operator`. -/
def opPunctChars : List Char := ['(', ')', ',', ';', '=', '<', '>', '!', '*', '.']

/-- The characters classified as OPERATOR (vs PUNCT). -/
def opChars : List Char := ['=', '<', '>', '!']

/-- The `tokenize` loop of `Tokenizer`, on the remaining input.  Each
iteration skips whitespace and reads one token (comment / string / number /
identifier / operator), or raises on any other character.  `fuel` bounds
the number of iterations; every iteration consumes at least one character,
so `length + 1` is always sufficient. -/
def tokenizeFrom (fuel : Nat) (cs : List Char) (acc : List Token) :
    Except String (List Token) :=
  match fuel with
  | 0 => .error "fuel exhausted"
  | fuel + 1 =>
    let cs1 := cs.dropWhile Char.isWhitespace
    match cs1 with
    | [] => .ok acc
    | c :: rest =>
      if c = '-' ∧ rest.head? = some '-' then
        tokenizeFrom fuel (cs1.dropWhile (fun d => d ≠ '\n')) acc
      else if c = '\'' ∨ c = '"' then
        let r := readStringBody c rest
        tokenizeFrom fuel r.2.1 (acc ++ [⟨"STRING", String.mk r.1⟩])
      else if c.isDigit ∨ (c = '-' ∧ (rest.head?.map Char.isDigit).getD false) then
        let body :=
          if c = '-' then
            let t := rest.takeWhile (fun d => d.isDigit ∨ d = '.')
            (c :: t, rest.drop t.length)
          else
            let t := cs1.takeWhile (fun d => d.isDigit ∨ d = '.')
            (t, cs1.drop t.length)
        tokenizeFrom fuel body.2 (acc ++ [⟨"NUMBER", String.mk body.1⟩])
      else if c.isAlpha ∨ c = '_' then
        let t := cs1.takeWhile (fun d => d.isAlphanum ∨ d = '_')
        let up := charUpperStr t
        let tok : Token :=
          if keywordSet.contains up then ⟨"KEYWORD", up⟩
          else ⟨"IDENTIFIER", String.mk t⟩
        tokenizeFrom fuel (cs1.drop t.length) (acc ++ [tok])
      else if opPunctChars.contains c then
        match rest.head? with
        | some d =>
          let two := String.mk [c, d]
          if two = "<=" ∨ two = ">=" ∨ two = "!=" ∨ two = "<>" then
            tokenizeFrom fuel (rest.drop 1) (acc ++ [⟨"OPERATOR", two⟩])
          else
            tokenizeFrom fuel rest
              (acc ++ [⟨if opChars.contains c then "OPERATOR" else "PUNCT",
                        String.mk [c]⟩])
        | none =>
          tokenizeFrom fuel rest
            (acc ++ [⟨if opChars.contains c then "OPERATOR" else "PUNCT",
                      String.mk [c]⟩])
      else .error ("Unexpected character: " ++ String.mk [c])

/-- `Tokenizer(query).tokenize()`. -/
def tokenizePy (s : String) : Except String (List Token) :=
  tokenizeFrom (s.toList.length + 1) s.toList []

/-- A sequence of table mutations (inserts and deletes), used to reason
about row-id assignment across subsequent operations; a failed operation
leaves the table in the state its error carries (which the theorems show
is the pre-call state). -/
inductive TableOp where
  | ins (data : List (String × Value)) : TableOp
  | del (rowIndex : Nat) : TableOp

/-- The table state after one operation (errors leave the carried state). -/
def stepTable (t : Table) : TableOp → Table
  | .ins d =>
    match t.insert d with
    | .ok (t', _) => t'
    | .error (_, t') => t'
  | .del i =>
    match t.delete i with
    | .ok t' => t'
    | .error (_, t') => t'

/-- The row ids handed out by the successful inserts of an operation
sequence, in order. -/
def assignedIds (t : Table) : List TableOp → List Nat
  | [] => []
  | .ins d :: rest =>
    match t.insert d with
    | .ok (t', r) => r.rowId :: assignedIds t' rest
    | .error (_, t') => assignedIds t' rest
  | .del i :: rest => assignedIds (stepTable t (.del i)) rest

/-- A sequence of `BTreeIndex` operations. -/
inductive IdxOp where
  | ins (key : Value) (slot : Nat) : IdxOp
  | del (key : Value) (slot : Nat) : IdxOp

def applyIdxOps (idx : BTreeIndex) : List IdxOp → BTreeIndex
  | [] => idx
  | .ins k s :: rest => applyIdxOps (idx.insert k s) rest
  | .del k s :: rest => applyIdxOps (idx.delete k s) rest

def countIdxIns (ops : List IdxOp) : Nat :=
  (ops.filter (fun o => match o with | .ins _ _ => true | _ => false)).length

def countIdxDel (ops : List IdxOp) : Nat :=
  (ops.filter (fun o => match o with | .del _ _ => true | _ => false)).length

/-- Claim-side definition (for the refinement comparison of the range
claim): the unindexed full-scan filter as the spec words it — the live
rows whose column value `v` satisfies `lo ≤ v ≤ hi`. -/
def specRangeFilter (t : Table) (columnName : String) (lo hi : Value) :
    List Row :=
  t.scan.filter (fun r =>
    pyGeBool (r.get columnName) lo && pyLeBool (r.get columnName) hi)

/-- Fold a list of inserts, keeping the carried state on failure (this is
how a sequence of `INSERT` statements leaves the table). -/
def insertAll (t : Table) (ds : List (List (String × Value))) : Table :=
  ds.foldl (fun t d => stepTable t (.ins d)) t

/-- A table with a single B-tree-indexed INT primary key holding the six
rows `k = 1 .. 6` (slots `0 .. 5`); the sixth insert splits the index
root. -/
def numsTable : Table :=
  insertAll
    (Table.init "nums" [{ name := "k", dataType := .int, primaryKey := true }])
    ([1, 2, 3, 4, 5, 6].map (fun i => [("k", Value.int i)]))

/-- A table with one DATETIME column and one row holding
`datetime(2024, 1, 1, 12, 0, 0)`. -/
def eventsTable : Table :=
  insertAll (Table.init "events" [{ name := "ts", dataType := .datetime }])
    [[("ts", Value.dt ⟨2024, 1, 1, 12, 0, 0⟩)]]

def dbEvents : Database := ⟨"mydb", [("events", eventsTable)]⟩

/-- Extract the `ts` value of the first row of `events`. -/
def tsOfDb (db : Database) : Option Value :=
  (db.getTable "events").bind (fun t =>
    ((t.rows.get? 0).getD none).map (fun r => r.get "ts"))

/-- `customers` with one row `id = 1`. -/
def custTable : Table :=
  insertAll (Table.init "customers" [{ name := "id", dataType := .int }])
    [[("id", Value.int 1)]]

/-- `orders` with one row `customer_id = 2`: no (base, join) pair satisfies
`customers.id = orders.customer_id`. -/
def ordersTable : Table :=
  insertAll (Table.init "orders" [{ name := "customer_id", dataType := .int }])
    [[("customer_id", Value.int 2)]]

def dbJoin : Database := ⟨"db", [("customers", custTable), ("orders", ordersTable)]⟩

/-- `SELECT * FROM customers INNER JOIN orders ON customers.id =
orders.customer_id`. -/
def qJoin : SelectQ :=
  { columns := ["*"], table := "customers"
    joins := [⟨"INNER", "orders", "customers.id", "orders.customer_id"⟩]
    whereC := none, orderBy := none, limit := none }

/-- `items` with a single row `v = 7`. -/
def itemsTable : Table :=
  insertAll (Table.init "items" [{ name := "v", dataType := .int }])
    [[("v", Value.int 7)]]

def dbItems : Database := ⟨"db", [("items", itemsTable)]⟩

/-- `SELECT * FROM items LIMIT 0`. -/
def qLimit0 : SelectQ :=
  { columns := ["*"], table := "items", joins := []
    whereC := none, orderBy := none, limit := some 0 }

/-- `SELECT * FROM items LIMIT 2`. -/
def qLimit2 : SelectQ :=
  { columns := ["*"], table := "items", joins := []
    whereC := none, orderBy := none, limit := some 2 }

/-- A primary-key table with live rows `k = 1` and `k = 2`, used to
exercise a failing duplicate insert. -/
def dupTable : Table :=
  insertAll
    (Table.init "dup" [{ name := "k", dataType := .int, primaryKey := true }])
    [[("k", Value.int 1)], [("k", Value.int 2)]]

/-- A table with an unindexed INT column `a`, two inserted rows
(`a = 1`, `a = 2`), whose first slot was then deleted (tombstoned). -/
def tombTable : Table :=
  stepTable
    (insertAll (Table.init "t" [{ name := "a", dataType := .int }])
      [[("a", Value.int 1)], [("a", Value.int 2)]])
    (.del 0)

/-- A table with an unindexed INT column `a` and two live rows, used as the
concrete input of the delete-behaviour witness. -/
def twoRowTable : Table :=
  insertAll (Table.init "t" [{ name := "a", dataType := .int }])
    [[("a", Value.int 10)], [("a", Value.int 20)]]

/-- The B-tree index on `numsTable.k` (present by construction). -/
def numsIdx : BTreeIndex :=
  match numsTable.getIndex "k" with
  | some (.btree b) => b
  | _ => BTreeIndex.new "k"

/-- `JOIN`-free helper: the row stored by `itemsTable`. -/
def itemRow : Row := ⟨[("v", Value.int 7)], 0⟩

/-- C1 -- For a SELECT with a single INNER JOIN under which *no* (base,
join) pair satisfies the equality predicate, the executor does not return
zero rows: `_apply_joins` ends with `return result_rows if result_rows
else base_rows`, so the unjoined base rows come back unchanged.  Here
`customers` holds `id = 1`, `orders` holds `customer_id = 2`, no pair
matches (second conjunct), yet the SELECT yields the bare customers row. -/
theorem inner_join_no_match_returns_base_rows :
    selectRows dbJoin qJoin = .ok [⟨[("id", Value.int 1)], 0⟩] ∧
    custTable.scan.all (fun br =>
      ordersTable.scan.all (fun jr =>
        !valueEq (br.get "id") (jr.get "customer_id"))) = true := by
  exact ⟨rfl, by decide⟩

/-- C2 -- Range lookup through the B-tree index does *not* return the rows
the unindexed full-scan filter keeps.  After inserting `k = 1 .. 6` the
index root splits; `_split_child` drops the median entry `(3, 2)` and
`_range_search_node` refuses to descend into a child whose separating key
exceeds `hi`, so `find_by_range("k", 1, 2)` returns no rows even though
live rows with `k = 1` and `k = 2` exist (and their entries are still in
the tree). -/
theorem range_search_misses_in_range_rows :
    numsTable.findByRange "k" (Value.int 1) (Value.int 2) = .ok [] ∧
    specRangeFilter numsTable "k" (Value.int 1) (Value.int 2) =
      [⟨[("k", Value.int 1)], 0⟩, ⟨[("k", Value.int 2)], 1⟩] ∧
    numsIdx.rangeSearch (Value.int 1) (Value.int 2) = [] ∧
    numsIdx.entries.filter (fun e =>
      pyGeBool e.1 (Value.int 1) && pyLeBool e.1 (Value.int 2)) =
      [(Value.int 1, 0), (Value.int 2, 1)] := by
  exact ⟨rfl, by decide, rfl, by decide⟩

/-- C3 -- `save()` then `load()` does not restore DATETIME values:
`json.dump(..., default=str)` stringifies the `datetime` and `load`
never parses it back, so the round-tripped row holds the text
`"2024-01-01 12:00:00"` where the original held
`datetime(2024, 1, 1, 12, 0, 0)`. -/
theorem round_trip_stringifies_datetime :
    tsOfDb dbEvents = some (Value.dt ⟨2024, 1, 1, 12, 0, 0⟩) ∧
    ((dbEvents.roundTrip ⟨2025, 10, 12, 0, 0, 0⟩).toOption.bind tsOfDb) =
      some (Value.text "2024-01-01 12:00:00") ∧
    Value.text "2024-01-01 12:00:00" ≠ Value.dt ⟨2024, 1, 1, 12, 0, 0⟩ := by
  exact ⟨rfl, rfl, by decide⟩

/-- C4 -- `Column.validate` on a `Null` value: accepted whenever the column
is nullable *or* flagged `primary_key` (so a NOT NULL primary key still
accepts Null), and the cannot-be-NULL error is returned exactly when the
column is non-nullable and not a primary key. -/
theorem validate_null_exempts_primary_key (c : Column) :
    c.validate .null =
      if ¬c.nullable ∧ ¬c.primaryKey then
        (false, some ("Column \x27" ++ c.name ++ "\x27 cannot be NULL"))
      else (true, none) := by
  rfl

/-- C8 -- `find_by_column` on an unindexed column of a table with a
tombstoned slot raises `TypeError` (the full-scan comprehension
subscripts the raw slot list, including `None` entries) instead of
returning the live matching rows (second conjunct); the column has no
index (third conjunct), so the full-scan branch is the one taken. -/
theorem find_by_column_crashes_on_tombstones :
    tombTable.findByColumn "a" (Value.int 2) =
      .error "TypeError: \x27NoneType\x27 object is not subscriptable" ∧
    tombTable.scan.filter (fun r => valueEq (r.get "a") (Value.int 2)) =
      [⟨[("a", Value.int 2)], 1⟩] ∧
    tombTable.getIndex "a" = none := by
  exact ⟨rfl, by decide, rfl⟩

theorem applyIdxOps_size (ops : List IdxOp) :
    ∀ idx : BTreeIndex, (applyIdxOps idx ops).size =
      idx.size + countIdxIns ops - countIdxDel ops := by
  induction ops with
  | nil => intro idx; simp [applyIdxOps, countIdxIns, countIdxDel]
  | cons o rest ih =>
    intro idx
    cases o with
    | ins k s =>
      have h1 : countIdxIns (IdxOp.ins k s :: rest) = countIdxIns rest + 1 := by
        simp [countIdxIns, List.filter_cons]
      have h2 : countIdxDel (IdxOp.ins k s :: rest) = countIdxDel rest := by
        simp [countIdxDel, List.filter_cons]
      simp only [applyIdxOps, ih, BTreeIndex.insert, h1, h2]
      push_cast
      ring
    | del k s =>
      have h1 : countIdxIns (IdxOp.del k s :: rest) = countIdxIns rest := by
        simp [countIdxIns, List.filter_cons]
      have h2 : countIdxDel (IdxOp.del k s :: rest) = countIdxDel rest + 1 := by
        simp [countIdxDel, List.filter_cons]
      simp only [applyIdxOps, ih, BTreeIndex.delete, h1, h2]
      push_cast
      ring

/-- C9 -- After any operation sequence on a fresh `BTreeIndex`, the `size`
field equals the number of `insert` calls minus the number of `delete`
calls (delete decrements unconditionally), so deleting a `(key, slot)`
pair that is not in the tree makes `size` negative and different from the
number of stored entries. -/
theorem btree_size_counts_calls :
    (∀ (cn : String) (ord : Nat) (ops : List IdxOp),
      (applyIdxOps (BTreeIndex.new cn ord) ops).size =
        (countIdxIns ops : Int) - countIdxDel ops) ∧
    ((BTreeIndex.new "c").delete (Value.int 1) 0).size = -1 ∧
    ((BTreeIndex.new "c").delete (Value.int 1) 0).entries.length = 0 := by
  refine ⟨fun cn ord ops => ?_, by rfl, by rfl⟩
  have h := applyIdxOps_size ops (BTreeIndex.new cn ord)
  simpa [BTreeIndex.new] using h

theorem insert_error_state (t : Table) (data : List (String × Value))
    (e : String) (t' : Table) (h : t.insert data = .error (e, t')) :
    t' = t := by
  unfold Table.insert at h
  split at h
  · simp only [Except.error.injEq, Prod.mk.injEq] at h
    exact h.2.symm
  · split at h
    · simp only [Except.error.injEq, Prod.mk.injEq] at h
      exact h.2.symm
    · simp only [Except.error.injEq, Prod.mk.injEq] at h
      exact h.2.symm
    · simp at h

/-- C6 -- Whenever `Table.insert` fails (every conversion and validation
step runs before any state is touched, so the error carries the table at
the moment of the raise), the rows, the indexes, `next_row_id` and the
live row count are exactly the pre-call ones. -/
theorem insert_failure_leaves_table_unchanged (t : Table)
    (data : List (String × Value)) (e : String) (t' : Table)
    (h : t.insert data = .error (e, t')) :
    t' = t ∧ t'.rows = t.rows ∧ t'.indexes = t.indexes ∧
      t'.nextRowId = t.nextRowId ∧ t'.scan.length = t.scan.length := by
  have := insert_error_state t data e t' h
  subst this
  exact ⟨rfl, rfl, rfl, rfl, rfl⟩

/-- Witness for C6: inserting `k = 1` into `dupTable` (whose live rows
already hold `k = 1`) fails with the duplicate-primary-key error and the
state carried by the error is the untouched table. -/
theorem insert_failure_leaves_table_unchanged_witness :
    dupTable = dupTable ∧ dupTable.rows = dupTable.rows ∧
      dupTable.indexes = dupTable.indexes ∧
      dupTable.nextRowId = dupTable.nextRowId ∧
      dupTable.scan.length = dupTable.scan.length :=
  insert_failure_leaves_table_unchanged dupTable [("k", Value.int 1)]
    "Validation error: Duplicate value for PRIMARY KEY column \x27k\x27"
    dupTable (by rfl)

/-- C5 (counterexample) -- `LIMIT 0` does not truncate: `if
parsed["limit"]:` is falsy for `0`, so the single-row SELECT returns one
row where `min(0, 1) = 0` rows are claimed. -/
theorem limit_zero_is_ignored :
    selectRows dbItems qLimit0 = .ok [itemRow] ∧
    qLimit0.limit = some 0 ∧
    ¬(([itemRow] : List Row).length =
      min ((0 : Int).toNat) ([itemRow] : List Row).length) := by
  exact ⟨rfl, rfl, by decide⟩

/-- C5 (amended) -- For every SELECT carrying `LIMIT n` with `n ≥ 1`, the
result rows are exactly the first `n` survivors of the preceding
JOIN/WHERE/ORDER BY pipeline — `min(n, survivor count)` rows in the
pipeline order (projection maps them one-to-one); `LIMIT 0` is treated as
absent (see the counterexample). -/
theorem limit_positive_truncates (db : Database) (q : SelectQ) (t : Table)
    (survivors : List Row) (n : Int)
    (hT : db.getTable q.table = some t)
    (hs : selectSurvivors db q = .ok survivors)
    (hl : q.limit = some n) (hn : 1 ≤ n) :
    selectRows db q = .ok (survivors.take n.toNat) ∧
    (survivors.take n.toNat).length = min n.toNat survivors.length ∧
    executeSelectRows db q = .ok ((survivors.take n.toNat).map
      (projectRow (resolveColumns q t (survivors.take n.toNat)))) := by
  have hne : n ≠ 0 := by omega
  have hpos : 0 ≤ n := by omega
  have hRows : selectRows db q = .ok (survivors.take n.toNat) := by
    unfold selectRows
    rw [hs, hl]
    simp only [Except.map, applyLimitStage, if_neg hne, pySliceTo, if_pos hpos]
  refine ⟨hRows, by simp, ?_⟩
  unfold executeSelectRows
  rw [hT, hRows]
  rfl

/-- Witness for C5: `SELECT * FROM items LIMIT 2` over the one-row table
returns that single row (`min(2, 1) = 1`). -/
theorem limit_positive_truncates_witness :
    selectRows dbItems qLimit2 = .ok ([itemRow].take (2 : Int).toNat) ∧
    ([itemRow].take (2 : Int).toNat).length = min (2 : Int).toNat [itemRow].length ∧
    executeSelectRows dbItems qLimit2 = .ok (([itemRow].take (2 : Int).toNat).map
      (projectRow (resolveColumns qLimit2 itemsTable ([itemRow].take (2 : Int).toNat)))) :=
  limit_positive_truncates dbItems qLimit2 itemsTable [itemRow] 2
    (by rfl) (by rfl) (by rfl) (by decide)

theorem insert_ok_ids (t : Table) (data : List (String × Value)) (t' : Table)
    (r : Row) (h : t.insert data = .ok (t', r)) :
    r.rowId = t.nextRowId ∧ t'.nextRowId = t.nextRowId + 1 := by
  unfold Table.insert at h
  split at h
  · simp at h
  · split at h
    · simp at h
    · simp at h
    · simp only [Except.ok.injEq, Prod.mk.injEq] at h
      obtain ⟨h1, h2⟩ := h
      subst h1
      subst h2
      exact ⟨rfl, rfl⟩

theorem delete_error_state (t : Table) (i : Nat) (e : String) (t' : Table)
    (h : t.delete i = .error (e, t')) : t' = t := by
  unfold Table.delete at h
  split at h
  · simp only [Except.error.injEq, Prod.mk.injEq] at h
    exact h.2.symm
  · split at h
    · split at h
      · simp at h
      · simp only [Except.error.injEq, Prod.mk.injEq] at h
        exact h.2.symm
    · simp at h

theorem delete_ok_nextRowId (t : Table) (i : Nat) (t' : Table)
    (h : t.delete i = .ok t') : t'.nextRowId = t.nextRowId := by
  unfold Table.delete at h
  split at h
  · simp at h
  · split at h
    · split at h
      · simp only [Except.ok.injEq] at h
        subst h
        rfl
      · simp at h
    · simp only [Except.ok.injEq] at h
      subst h
      rfl

theorem stepTable_del_nextRowId (t : Table) (i : Nat) :
    (stepTable t (TableOp.del i)).nextRowId = t.nextRowId := by
  cases h : t.delete i with
  | ok t' =>
    have hs : stepTable t (TableOp.del i) = t' := by simp [stepTable, h]
    rw [hs]
    exact delete_ok_nextRowId t i t' h
  | error p =>
    obtain ⟨e, t'⟩ := p
    have hs : stepTable t (TableOp.del i) = t' := by simp [stepTable, h]
    rw [hs]
    exact congrArg Table.nextRowId (delete_error_state t i e t' h)

theorem assignedIds_bounds (ops : List TableOp) :
    ∀ t : Table, List.Chain' (· < ·) (assignedIds t ops) ∧
      ∀ x ∈ assignedIds t ops, t.nextRowId ≤ x := by
  induction ops with
  | nil => exact fun t => ⟨List.chain'_nil, by simp [assignedIds]⟩
  | cons o rest ih =>
    intro t
    cases o with
    | ins d =>
      cases h : t.insert d with
      | ok p =>
        obtain ⟨t', r⟩ := p
        obtain ⟨hr, hn⟩ := insert_ok_ids t d t' r h
        obtain ⟨ihc, ihb⟩ := ih t'
        simp only [assignedIds, h]
        constructor
        · refine List.chain'_cons'.mpr ⟨fun b hb => ?_, ihc⟩
          have hbm : b ∈ assignedIds t' rest := by
            cases hh : assignedIds t' rest with
            | nil => rw [hh] at hb; simp at hb
            | cons y ys =>
              rw [hh] at hb
              simp at hb
              subst hb
              simp [hh]
          have := ihb b hbm
          omega
        · intro x hx
          rcases List.mem_cons.mp hx with hx | hx
          · omega
          · have := ihb x hx
            omega
      | error p =>
        obtain ⟨e, t'⟩ := p
        have heq := insert_error_state t d e t' h
        subst heq
        simp only [assignedIds, h]
        exact ih t'
    | del i =>
      simp only [assignedIds]
      obtain ⟨ihc, ihb⟩ := ih (stepTable t (TableOp.del i))
      refine ⟨ihc, fun x hx => ?_⟩
      have := ihb x hx
      rwa [stepTable_del_nextRowId] at this

theorem scan_set_none_ids (l : List (Option Row)) :
    ∀ (i : Nat) (r s : Row), l[i]? = some (some r) →
      ((l.filterMap id).map Row.rowId).Nodup →
      s ∈ (l.set i none).filterMap id → s.rowId ≠ r.rowId := by
  induction l with
  | nil => intro i r s h; simp at h
  | cons x xs ih =>
    intro i r s h hnd hs
    cases i with
    | zero =>
      simp only [List.getElem?_cons_zero, Option.some.injEq] at h
      subst h
      simp only [List.set_cons_zero, List.filterMap_cons, id_eq] at hs
      simp only [List.filterMap_cons, id_eq, List.map_cons, List.nodup_cons] at hnd
      intro he
      have hm : s.rowId ∈ (xs.filterMap id).map Row.rowId :=
        List.mem_map_of_mem Row.rowId hs
      rw [he] at hm
      exact hnd.1 hm
    | succ j =>
      simp only [List.getElem?_cons_succ] at h
      rw [List.set_cons_succ] at hs
      cases x with
      | none =>
        simp only [List.filterMap_cons, id_eq] at hs hnd
        exact ih j r s h hnd hs
      | some y =>
        simp only [List.filterMap_cons, id_eq, List.map_cons,
          List.nodup_cons] at hnd
        simp only [List.filterMap_cons, id_eq, List.mem_cons] at hs
        rcases hs with hs | hs
        · subst hs
          intro he
          have hrm : r ∈ xs.filterMap id := by
            have hmem : some r ∈ xs := by
              have := List.getElem?_eq_some_iff.mp h
              obtain ⟨hlt, hget⟩ := this
              exact hget ▸ List.getElem_mem hlt
            exact List.mem_filterMap.mpr ⟨some r, hmem, rfl⟩
          have : r.rowId ∈ (xs.filterMap id).map Row.rowId :=
            List.mem_map_of_mem Row.rowId hrm
          rw [← he] at this
          exact hnd.1 this
        · exact ih j r s h hnd.2 hs

/-- C7 -- Deleting a live row tombstones its slot without compacting: the
slot becomes `none`, `next_row_id` is untouched, every other slot keeps
its position, the row's id no longer appears in `scan()`, and across any
subsequent insert/delete sequence the ids handed out by successful
inserts are strictly increasing and never equal the deleted row's id.
(The id hypotheses — distinct live ids bounded by `next_row_id` — hold in
every table reachable by the engine's own operations.) -/
theorem delete_tombstones_and_ids_monotone (t : Table) (i : Nat) (r : Row)
    (hi : t.rows[i]? = some (some r))
    (hnd : (t.scan.map Row.rowId).Nodup)
    (hb : ∀ s ∈ t.scan, s.rowId < t.nextRowId) :
    ∃ t', t.delete i = .ok t' ∧
      t'.rows[i]? = some none ∧
      t'.nextRowId = t.nextRowId ∧
      t'.rows.length = t.rows.length ∧
      (∀ j, j ≠ i → t'.rows[j]? = t.rows[j]?) ∧
      (∀ s ∈ t'.scan, s.rowId ≠ r.rowId) ∧
      (∀ ops, List.Chain' (· < ·) (assignedIds t' ops) ∧
        r.rowId ∉ assignedIds t' ops) := by
  have hlen : i < t.rows.length := by
    rcases List.getElem?_eq_some_iff.mp hi with ⟨hlt, _⟩
    exact hlt
  have hdel : t.delete i =
      .ok { t with
              indexes := t.indexes.map (fun p =>
                let v := r.get p.1
                if v ≠ .null then (p.1, p.2.delete v i) else p)
              rows := t.rows.set i none } := by
    unfold Table.delete
    rw [if_neg (by omega)]
    rw [hi]
    rfl
  refine ⟨_, hdel, ?_, rfl, by simp, ?_, ?_, ?_⟩
  · exact List.getElem?_set_self hlen
  · intro j hj
    exact List.getElem?_set_ne (Ne.symm hj)
  · intro s hs
    exact scan_set_none_ids t.rows i r s hi hnd hs
  · intro ops
    set t' : Table :=
      { t with
          indexes := t.indexes.map (fun p =>
            let v := r.get p.1
            if v ≠ .null then (p.1, p.2.delete v i) else p)
          rows := t.rows.set i none } with ht'
    obtain ⟨hc, hlow⟩ := assignedIds_bounds ops t'
    refine ⟨hc, fun hmem => ?_⟩
    have h1 : t'.nextRowId ≤ r.rowId := hlow _ hmem
    have hrs : r ∈ t.scan := by
      rcases List.getElem?_eq_some_iff.mp hi with ⟨hlt, hget⟩
      have hmemr : some r ∈ t.rows := hget ▸ List.getElem_mem hlt
      show r ∈ t.rows.filterMap id
      exact List.mem_filterMap.mpr ⟨some r, hmemr, rfl⟩
    have h2 : r.rowId < t.nextRowId := hb r hrs
    have h3 : t'.nextRowId = t.nextRowId := rfl
    omega

/-- Witness for C7: deleting slot 0 of the two-row table. -/
theorem delete_tombstones_and_ids_monotone_witness :
    ∃ t', twoRowTable.delete 0 = .ok t' ∧
      t'.rows[0]? = some none ∧
      t'.nextRowId = twoRowTable.nextRowId ∧
      t'.rows.length = twoRowTable.rows.length ∧
      (∀ j, j ≠ 0 → t'.rows[j]? = twoRowTable.rows[j]?) ∧
      (∀ s ∈ t'.scan, s.rowId ≠ Row.rowId ⟨[("a", Value.int 10)], 0⟩) ∧
      (∀ ops, List.Chain' (· < ·) (assignedIds t' ops) ∧
        Row.rowId ⟨[("a", Value.int 10)], 0⟩ ∉ assignedIds t' ops) :=
  delete_tombstones_and_ids_monotone twoRowTable 0 ⟨[("a", Value.int 10)], 0⟩
    (by rfl) (by decide) (by decide)


theorem readStringBody_cons (q c : Char) (rest : List Char) :
    readStringBody q (c :: rest) =
      if c = q then ([], rest, true)
      else if c = '\\' then
        match rest with
        | [] => ([c], [], false)
        | d :: rest2 =>
          let r := readStringBody q rest2
          (c :: d :: r.1, r.2.1, r.2.2)
      else
        let r := readStringBody q rest
        (c :: r.1, r.2.1, r.2.2) := by
  rw [readStringBody.eq_def]

theorem readStringBody_no_close (q : Char) :
    ∀ cs : List Char, (readStringBody q cs).2.2 = false →
      (readStringBody q cs).1 = cs ∧ (readStringBody q cs).2.1 = []
  | [], _ => by simp [readStringBody]
  | c :: rest, h => by
    rw [readStringBody_cons] at h ⊢
    by_cases hq : c = q
    · rw [if_pos hq] at h
      simp at h
    · rw [if_neg hq] at h ⊢
      by_cases hbk : c = '\\'
      · rw [if_pos hbk] at h ⊢
        cases rest with
        | nil => simp
        | cons d rest2 =>
          dsimp only at h ⊢
          have ih := readStringBody_no_close q rest2 h
          exact ⟨by rw [ih.1], ih.2⟩
      · rw [if_neg hbk] at h ⊢
        dsimp only at h ⊢
        have ih := readStringBody_no_close q rest h
        exact ⟨by rw [ih.1], ih.2⟩

/-- C10 -- When the tokenizer reaches an opening quote whose literal is
never closed (the `_read_string` scan runs to end of input without meeting
the closing quote), no lexical error is raised: the token list gains a
final STRING token holding everything after the opening quote and
tokenization ends there (the remaining input is empty). -/
theorem unterminated_string_lexes_to_eof (fuel : Nat) (q : Char)
    (cs : List Char) (acc : List Token)
    (hfuel : 2 ≤ fuel) (hq : q = '\'' ∨ q = '"')
    (hnc : (readStringBody q cs).2.2 = false) :
    tokenizeFrom fuel (q :: cs) acc =
      .ok (acc ++ [⟨"STRING", String.mk cs⟩]) := by
  obtain ⟨k, rfl⟩ : ∃ k, fuel = k + 1 + 1 := ⟨fuel - 2, by omega⟩
  obtain ⟨hv, hr⟩ := readStringBody_no_close q cs hnc
  have htail : tokenizeFrom (k + 1) ([] : List Char)
      (acc ++ [⟨"STRING", String.mk cs⟩]) =
      .ok (acc ++ [⟨"STRING", String.mk cs⟩]) := by
    simp only [tokenizeFrom, List.dropWhile_nil]
  rcases hq with hq | hq <;> subst hq
  · have hnd : ¬('\'' = '-') := by decide
    have hs1 : ('\'' = '\'' ∨ '\'' = '"') := Or.inl rfl
    simp only [tokenizeFrom, List.dropWhile_cons,
      show ('\''.isWhitespace) = false from rfl, Bool.false_eq_true, if_false,
      hnd, false_and, hs1, if_true, hv, hr]
    exact htail
  · have hnd : ¬('"' = '-') := by decide
    have hs1 : ('"' = '\'' ∨ '"' = '"') := Or.inr rfl
    simp only [tokenizeFrom, List.dropWhile_cons,
      show ('"'.isWhitespace) = false from rfl, Bool.false_eq_true, if_false,
      hnd, false_and, hs1, if_true, hv, hr]
    exact htail

/-- Witness for C10: lexing `SELECT 'abc` (an unterminated single-quoted
literal) succeeds and ends in `STRING "abc"`. -/
theorem unterminated_string_lexes_to_eof_witness :
    tokenizeFrom 11 ('\x27' :: "abc".toList) [⟨"KEYWORD", "SELECT"⟩] =
      .ok ([⟨"KEYWORD", "SELECT"⟩] ++ [⟨"STRING", String.mk "abc".toList⟩]) ∧
    tokenizePy "SELECT \x27abc" =
      .ok [⟨"KEYWORD", "SELECT"⟩, ⟨"STRING", "abc"⟩] :=
  ⟨unterminated_string_lexes_to_eof 11 '\x27' "abc".toList
      [⟨"KEYWORD", "SELECT"⟩] (by omega) (Or.inl rfl) (by decide),
   by rfl⟩
